import Mathlib

/-!
A shallow embedding of the IR-node core of `src/src/coreclr/jit/gentree.h`
(the JIT's `GenTree` node model), together with proofs of the specified
properties: side-effect flag propagation at node construction, the
globally-visible-side-effect predicate, the field-sequence canonicalization
store, the use-edge iteration protocol, the copy/reload multi-register
count derivation, and the value-number behaviour of operator changes.

Machine integers (`unsigned int` flag masks, `uintptr_t` handles, register
numbers) are modelled as `Nat` with explicit masking where width matters.
-/

namespace GenTreeModel

/- ------------------------------------------------------------------ -/
/- Definitions: the shallow embedding of the gentree.h data model.     -/
/- ------------------------------------------------------------------ -/

/-- GTF_ASG: sub-expression contains an assignment (gentree.h, GenTreeFlags). -/
def GTF_ASG : Nat := 0x00000001

/-- GTF_CALL: sub-expression contains a function call. -/
def GTF_CALL : Nat := 0x00000002

/-- GTF_EXCEPT: sub-expression might throw an exception. -/
def GTF_EXCEPT : Nat := 0x00000004

/-- GTF_GLOB_REF: sub-expression uses global variable(s). -/
def GTF_GLOB_REF : Nat := 0x00000008

/-- GTF_ORDER_SIDEEFF: sub-expression has a re-ordering side effect. -/
def GTF_ORDER_SIDEEFF : Nat := 0x00000010

/-- GTF_PERSISTENT_SIDE_EFFECTS = GTF_ASG | GTF_CALL. -/
def GTF_PERSISTENT_SIDE_EFFECTS : Nat := GTF_ASG ||| GTF_CALL

/-- GTF_SIDE_EFFECT = GTF_PERSISTENT_SIDE_EFFECTS | GTF_EXCEPT. -/
def GTF_SIDE_EFFECT : Nat := GTF_PERSISTENT_SIDE_EFFECTS ||| GTF_EXCEPT

/-- GTF_GLOB_EFFECT = GTF_SIDE_EFFECT | GTF_GLOB_REF. -/
def GTF_GLOB_EFFECT : Nat := GTF_SIDE_EFFECT ||| GTF_GLOB_REF

/-- GTF_ALL_EFFECT = GTF_GLOB_EFFECT | GTF_ORDER_SIDEEFF: the composite
side-effect subset of the flag word. -/
def GTF_ALL_EFFECT : Nat := GTF_GLOB_EFFECT ||| GTF_ORDER_SIDEEFF

/-- GTF_REVERSE_OPS: operand op2 should be evaluated before op1. -/
def GTF_REVERSE_OPS : Nat := 0x00000020

/-- The 32-bit complement `~GTF_ALL_EFFECT` used by `gtFlags &= ~GTF_ALL_EFFECT`
(`gtFlags` is a 32-bit `unsigned int` in release builds). -/
def NOT_GTF_ALL_EFFECT : Nat := 0xFFFFFFFF ^^^ GTF_ALL_EFFECT

/-- The macro GTF_GLOBALLY_VISIBLE_SIDE_EFFECTS(flags) from gentree.h:
`((flags) & (GTF_CALL | GTF_EXCEPT)) || (((flags) & (GTF_ASG | GTF_GLOB_REF)) == (GTF_ASG | GTF_GLOB_REF))`. -/
def GTF_GLOBALLY_VISIBLE_SIDE_EFFECTS (flags : Nat) : Bool :=
  decide (flags &&& (GTF_CALL ||| GTF_EXCEPT) ≠ 0) ||
    decide (flags &&& (GTF_ASG ||| GTF_GLOB_REF) = (GTF_ASG ||| GTF_GLOB_REF))

/-- ValueNumPair: the liberal/conservative value-number pair stored in each node. -/
structure ValueNumPair where
  m_liberal : Nat
  m_conservative : Nat
deriving DecidableEq

/-- Modelled from the spec: `ValueNumStore::NoVN` (valuenum.h, not in src/) is the
reserved "no value number" value; `ValueNumPair()` initializes both elements to it. -/
def NoVN : Nat := 0

/-- The default-constructed `ValueNumPair()`, which initializes both elements to NoVN
(per the comment in `GenTree::ClearVN`). -/
def emptyVNPair : ValueNumPair := ⟨NoVN, NoVN⟩

/-- The common GenTree node header: operator code, static type, flag word and
value-number pair (the fields the verified claims read and write). -/
structure GenTree where
  gtOper : Nat
  gtType : Nat
  gtFlags : Nat
  gtVNPair : ValueNumPair
deriving DecidableEq

/-- Modelled from the spec: the `GenTree` base constructor and the node-construction
sites live outside this header (gentree.cpp / compiler.hpp, not in src/); per the
spec, every construction site seeds a node's flag word with "any effect the
operator itself introduces". `operEffects` is that seed; the value-number pair
starts out uninitialized. -/
def mkGenTree (oper ty operEffects : Nat) : GenTree :=
  ⟨oper, ty, operEffects, emptyVNPair⟩

/-- The `GenTreeUnOp(oper, type, op1)` constructor (gentree.h): when `op1` is
non-null it propagates the child's effects with `gtFlags |= op1->gtFlags & GTF_ALL_EFFECT`. -/
def mkGenTreeUnOp (oper ty operEffects : Nat) (op1 : Option GenTree) : GenTree :=
  let g := mkGenTree oper ty operEffects
  match op1 with
  | none => g
  | some o => { g with gtFlags := g.gtFlags ||| (o.gtFlags &&& GTF_ALL_EFFECT) }

/-- The `GenTreeOp(oper, type, op1, op2)` constructor (gentree.h): delegates the
first operand to `GenTreeUnOp` and, when `op2` is non-null, additionally performs
`gtFlags |= op2->gtFlags & GTF_ALL_EFFECT`. -/
def mkGenTreeOp (oper ty operEffects : Nat) (op1 op2 : Option GenTree) : GenTree :=
  let g := mkGenTreeUnOp oper ty operEffects op1
  match op2 with
  | none => g
  | some o => { g with gtFlags := g.gtFlags ||| (o.gtFlags &&& GTF_ALL_EFFECT) }

/-- `GenTree::SetAllEffectsFlags(GenTreeFlags sourceFlags)` (gentree.h):
`gtFlags &= ~GTF_ALL_EFFECT; gtFlags |= sourceFlags` on the 32-bit flag word. -/
def SetAllEffectsFlagsMask (t : GenTree) (sourceFlags : Nat) : GenTree :=
  { t with gtFlags := t.gtFlags &&& NOT_GTF_ALL_EFFECT ||| sourceFlags }

/-- `GenTree::SetAllEffectsFlags(GenTree* source)` (gentree.h). -/
def SetAllEffectsFlags1 (t s : GenTree) : GenTree :=
  SetAllEffectsFlagsMask t (s.gtFlags &&& GTF_ALL_EFFECT)

/-- `GenTree::SetAllEffectsFlags(GenTree* firstSource, GenTree* secondSource)` (gentree.h). -/
def SetAllEffectsFlags2 (t s1 s2 : GenTree) : GenTree :=
  SetAllEffectsFlagsMask t ((s1.gtFlags ||| s2.gtFlags) &&& GTF_ALL_EFFECT)

/-- `GenTree::SetAllEffectsFlags(GenTree*, GenTree*, GenTree*)` (gentree.h). -/
def SetAllEffectsFlags3 (t s1 s2 s3 : GenTree) : GenTree :=
  SetAllEffectsFlagsMask t ((s1.gtFlags ||| s2.gtFlags ||| s3.gtFlags) &&& GTF_ALL_EFFECT)

/-- The value-number update action enumeration from `GenTree` (gentree.h). -/
inductive ValueNumberUpdate where
  | CLEAR_VN
  | PRESERVE_VN
deriving DecidableEq

/-- The two value-number interpretations selected by `GenTree::GetVN`. -/
inductive ValueNumKind where
  | VNK_Liberal
  | VNK_Conservative
deriving DecidableEq

/-- `GenTree::GetVN(vnk)` (gentree.h): returns the liberal or the conservative
element of the node's value-number pair. -/
def GetVN (t : GenTree) (vnk : ValueNumKind) : Nat :=
  match vnk with
  | .VNK_Liberal => t.gtVNPair.m_liberal
  | .VNK_Conservative => t.gtVNPair.m_conservative

/-- `GenTree::ClearVN()` (gentree.h): `gtVNPair = ValueNumPair()`, which
initializes both elements to NoVN. -/
def ClearVN (t : GenTree) : GenTree :=
  { t with gtVNPair := emptyVNPair }

/-- Modelled from the spec: the body of `GenTree::SetOper(oper, vnUpdate)` lives in
gentree.cpp (not in src/). Per the spec's operator-change contract, it installs the
new operator code and, when `vnUpdate` is CLEAR_VN (the default), clears the
value-number pair via `ClearVN`; the PRESERVE_VN variant leaves the pair alone. -/
def SetOper (t : GenTree) (oper : Nat) (vnUpdate : ValueNumberUpdate) : GenTree :=
  let t' := { t with gtOper := oper }
  match vnUpdate with
  | .CLEAR_VN => ClearVN t'
  | .PRESERVE_VN => t'

/-- Modelled from the spec: MAX_RET_REG_COUNT is a target-dependent constant
(target.h, not in src/); the spec's multi-register scenario with an assigned
register at index 2 requires at least 3, and targets with four-register returns
use 4. The packed spill-flag word constraint in gentree.h
(`MAX_RET_REG_COUNT * 2 <= 8`) also bounds it by 4. -/
def MAX_RET_REG_COUNT : Nat := 4

/-- Modelled from the spec: REG_NA is the distinguished "no register assigned"
register number (target.h, not in src/); its concrete value is irrelevant here,
only its distinguishedness matters. -/
def REG_NA : Nat := 255

/-- `GenTreeCopyOrReload`: the primary register (`GetRegNum()`, stored on the node
header) plus the `gtOtherRegs[MAX_RET_REG_COUNT - 1]` array of additional
register assignments. -/
structure GenTreeCopyOrReload where
  gtRegNum : Nat
  otherReg0 : Nat
  otherReg1 : Nat
  otherReg2 : Nat
deriving DecidableEq

/-- Array access `gtOtherRegs[i]` for `i < MAX_RET_REG_COUNT - 1`. -/
def GenTreeCopyOrReload.gtOtherReg (t : GenTreeCopyOrReload) : Nat → Nat
  | 0 => t.otherReg0
  | 1 => t.otherReg1
  | 2 => t.otherReg2
  | _ => REG_NA

/-- `GenTreeCopyOrReload::GetRegNumByIdx(idx)` (gentree.h): index 0 is the node's
primary register; index `idx > 0` reads `gtOtherRegs[idx - 1]`. -/
def GenTreeCopyOrReload.GetRegNumByIdx (t : GenTreeCopyOrReload) (idx : Nat) : Nat :=
  if idx = 0 then t.gtRegNum else t.gtOtherReg (idx - 1)

/-- The loop in `GenTreeCopyOrReload::GetRegCount` (gentree.h):
`for (unsigned i = MAX_RET_REG_COUNT; i > 1; i--) if (gtOtherRegs[i - 2] != REG_NA) return i;`
followed by `return 1`. -/
def GenTreeCopyOrReload.regCountLoop (t : GenTreeCopyOrReload) : Nat → Nat
  | 0 => 1
  | 1 => 1
  | n + 2 => if t.gtOtherReg n ≠ REG_NA then n + 2 else t.regCountLoop (n + 1)

/-- `GenTreeCopyOrReload::GetRegCount()` (gentree.h): the register count is
derived from the highest index holding an assigned register, not stored. -/
def GenTreeCopyOrReload.GetRegCount (t : GenTreeCopyOrReload) : Nat :=
  t.regCountLoop MAX_RET_REG_COUNT

/-- The spec's description of the derivation rule, stated independently of the
loop: one plus the highest register index (below MAX_RET_REG_COUNT) whose
register is assigned, taking index 0 when no higher index is assigned. -/
def GenTreeCopyOrReload.highestAssignedRegIdxSpec (t : GenTreeCopyOrReload) : Nat :=
  if t.GetRegNumByIdx 3 ≠ REG_NA then 3
  else if t.GetRegNumByIdx 2 ≠ REG_NA then 2
  else if t.GetRegNumByIdx 1 ≠ REG_NA then 1
  else 0

/-- A field-sequence handle (a `FieldSeqNode*`): the null pointer, the address of
the distinguished static `s_notAField` sentinel, or a pointer to an interned
node, modelled as the node's position in the store's arena. -/
inductive FieldSeqRef where
  | nullSeq
  | notAField
  | seq (i : Nat)
deriving DecidableEq

/-- `FieldSeqNode` (gentree.h): the packed field-handle-and-kind word and the
tail pointer. The packing `m_fieldHandleAndKind = handle | kind` is modelled as
`handle * 4 + kind` (the handle is pointer-aligned, FIELD_KIND_MASK = 0b11). -/
structure FieldSeqNode where
  m_fieldHandleAndKind : Nat
  m_next : FieldSeqRef
deriving DecidableEq

/-- `FieldSeqNode::Equals` (gentree.h): compares the packed word and the tail
pointer. -/
def FieldSeqNode.EqualsB (a b : FieldSeqNode) : Bool :=
  decide (a.m_fieldHandleAndKind = b.m_fieldHandleAndKind) && decide (a.m_next = b.m_next)

/-- The store's arena of interned nodes; a handle `FieldSeqRef.seq i` points at
position `i`. The canonicalizing hash table keyed by `FieldSeqNode` with
`FieldSeqNode::Equals` is modelled as linear search over this arena. -/
def FieldSeqArena : Type := List FieldSeqNode

/-- Hash-table lookup: the position of the first interned node `Equals` to `n`. -/
def findNode : List FieldSeqNode → FieldSeqNode → Option Nat
  | [], _ => none
  | m :: rest, n =>
    if m.EqualsB n then some 0 else (findNode rest n).map (· + 1)

/-- Canonicalization step shared by `CreateSingleton` and `Append`: return the
existing handle when an `Equals` node is already interned, otherwise intern a
fresh node at the end of the arena. -/
def intern (s : List FieldSeqNode) (n : FieldSeqNode) : FieldSeqRef × List FieldSeqNode :=
  match findNode s n with
  | some i => (.seq i, s)
  | none => (.seq s.length, s ++ [n])

/-- Modelled from the spec: the body of `FieldSeqStore::CreateSingleton` lives in
gentree.cpp (not in src/). Per the spec it returns the canonical (in the store)
one-element sequence for the given field handle and kind; the underlying node is
`FieldSeqNode(fieldHnd, nullptr, fieldKind)`. -/
def CreateSingleton (s : List FieldSeqNode) (fieldHnd fieldKind : Nat) :
    FieldSeqRef × List FieldSeqNode :=
  intern s ⟨fieldHnd * 4 + fieldKind, .nullSeq⟩

/-- Modelled from the spec: the body of `FieldSeqStore::Append` lives in
gentree.cpp (not in src/). Per the spec and the header's documentation it is the
canonical concatenation: a null sequence is a neutral element, the NotAField
sentinel is infectious on either side, and otherwise the head of `a` is re-interned
onto the concatenation of `a`'s tail with `b`. The fuel argument bounds the walk
along `a`'s chain (interned chains in a well-formed arena are finite). -/
def appendFuel : Nat → List FieldSeqNode → FieldSeqRef → FieldSeqRef →
    FieldSeqRef × List FieldSeqNode
  | _, s, .nullSeq, b => (b, s)
  | _, s, .notAField, _ => (.notAField, s)
  | _, s, .seq i, .nullSeq => (.seq i, s)
  | _, s, .seq _, .notAField => (.notAField, s)
  | 0, s, .seq _, .seq _ => (.notAField, s)
  | fuel + 1, s, .seq i, .seq j =>
    match s[i]? with
    | none => (.notAField, s)
    | some node =>
      let r := appendFuel fuel s node.m_next (.seq j)
      intern r.2 ⟨node.m_fieldHandleAndKind, r.1⟩

/-- `FieldSeqStore::Append(a, b)`: the chain of a canonical handle never reaches
beyond the arena, so the arena length bounds the walk. -/
def Append (s : List FieldSeqNode) (a b : FieldSeqRef) : FieldSeqRef × List FieldSeqNode :=
  appendFuel (s.length + 1) s a b

/-- `FieldSeqStore::NotAField()` (gentree.h): the distinguished sentinel. -/
def NotAField : FieldSeqRef := .notAField

/-- Building the canonical sequence for a chain of (field handle, field kind)
pairs: intern the tail of the chain, intern a singleton for the head field, and
append the two — the construction pattern the Field-Sequence Store's clients use. -/
def buildSeq (s : List FieldSeqNode) : List (Nat × Nat) → FieldSeqRef × List FieldSeqNode
  | [] => (.nullSeq, s)
  | (f, k) :: rest =>
    let r1 := buildSeq s rest
    let r2 := CreateSingleton r1.2 f k
    Append r2.2 r2.1 r1.1

/-- Arena extension order: `t` extends `s` by interning further nodes at the end. -/
def StoreLe (s t : List FieldSeqNode) : Prop := ∃ u, t = s ++ u

/-- A child-operand slot of a node: the value of the iterator's `m_edge` pointer.
Distinct live slots of one node have distinct addresses, which this models. -/
inductive Slot where
  | noEdge
  | op1
  | op2
  | earlyArg (i : Nat)
  | lateArg (i : Nat)
  | ctrlExpr
  | callAddr
deriving DecidableEq

/-- The node shapes the iteration claims quantify over: unary/binary-shape nodes
(`GenTreeOp`, either operand possibly null) and call-shape nodes with their
evaluation-order argument count, late/ABI argument count, optional control-target
expression and optional indirect-call-target expression. -/
inductive NodeShape where
  | binop (op1Present op2Present : Bool)
  | call (numEarlyArgs numLateArgs : Nat) (hasControlExpr hasCallAddress : Bool)
deriving DecidableEq

/-- A node as seen by the use-edge iterator: its address identity, its flag word
and its shape. -/
structure IterNode where
  nid : Nat
  gtFlags : Nat
  shape : NodeShape
deriving DecidableEq

def IterNode.numEarlyArgs (n : IterNode) : Nat :=
  match n.shape with
  | .call ne _ _ _ => ne
  | _ => 0

def IterNode.numLateArgs (n : IterNode) : Nat :=
  match n.shape with
  | .call _ nl _ _ => nl
  | _ => 0

def IterNode.hasControlExpr (n : IterNode) : Bool :=
  match n.shape with
  | .call _ _ c _ => c
  | _ => false

def IterNode.hasCallAddress (n : IterNode) : Bool :=
  match n.shape with
  | .call _ _ _ a => a
  | _ => false

/-- Whether the node's GTF_REVERSE_OPS flag is set (selects the reversed
`AdvanceBinOp` specialization). -/
def IterNode.binOpReverse (n : IterNode) : Bool :=
  decide (n.gtFlags &&& GTF_REVERSE_OPS ≠ 0)

/-- `GenTreeUseEdgeIterator`: exactly the four fields compared by the header's
`operator==` — the originating node, the current edge, the pointer-sized list
state and the integer state (`-1` is the exhausted/terminal state). -/
structure UseEdgeIterState where
  m_node : Nat
  m_edge : Slot
  m_statePtr : Nat
  m_state : Int
deriving DecidableEq

/-- `GenTreeUseEdgeIterator::operator==` (gentree.h): when either side is in the
terminal state only the states are compared; otherwise all four fields are. -/
def iterEq (a b : UseEdgeIterState) : Bool :=
  if a.m_state = -1 ∨ b.m_state = -1 then decide (a.m_state = b.m_state)
  else
    decide (a.m_node = b.m_node) && decide (a.m_edge = b.m_edge) &&
      decide (a.m_statePtr = b.m_statePtr) && decide (a.m_state = b.m_state)

/-- `Terminate()`: enter the exhausted state, leaving the other fields stale. -/
def terminalFrom (it : UseEdgeIterState) : UseEdgeIterState :=
  { it with m_state := -1 }

/-- Modelled from the spec: the advance logic of `GenTreeUseEdgeIterator` lives in
gentree.cpp (not in src/). The call stages below follow the header's state enum
(CALL_ARGS = 0, CALL_LATE_ARGS = 1, CALL_CONTROL_EXPR = 2, CALL_ADDRESS = 4) and
the spec's order: evaluation-order arguments, late/ABI arguments, the optional
control-target expression, the optional indirect-call-target expression.
`callSeekAddress` positions the iterator on the indirect-call-target edge or
terminates. -/
def callSeekAddress (n : IterNode) : UseEdgeIterState :=
  if n.hasCallAddress then ⟨n.nid, .callAddr, 0, 4⟩ else ⟨n.nid, .noEdge, 0, -1⟩

/-- Position on the control-target edge if present, else fall through to the
indirect-call-target stage. -/
def callSeekCtrl (n : IterNode) : UseEdgeIterState :=
  if n.hasControlExpr then ⟨n.nid, .ctrlExpr, 0, 2⟩ else callSeekAddress n

/-- Position on late/ABI argument `ptr` if the late list still has one, else fall
through to the control-target stage. -/
def callSeekLate (n : IterNode) (ptr : Nat) : UseEdgeIterState :=
  if ptr < n.numLateArgs then ⟨n.nid, .lateArg ptr, ptr, 1⟩ else callSeekCtrl n

/-- Position on evaluation-order argument `ptr` if the list still has one, else
fall through to the late-argument stage. -/
def callSeekEarly (n : IterNode) (ptr : Nat) : UseEdgeIterState :=
  if ptr < n.numEarlyArgs then ⟨n.nid, .earlyArg ptr, ptr, 0⟩ else callSeekLate n 0

/-- Modelled from the spec: the `GenTreeUseEdgeIterator` constructor
(gentree.cpp, not in src/). For a binary-shape node it enters at the first or the
second operand according to GTF_REVERSE_OPS (`SetEntryStateForBinOp`); for a
call-shape node it enters at the first live call stage; a node with no live
operands starts terminal. -/
def useEdgesBegin (n : IterNode) : UseEdgeIterState :=
  match n.shape with
  | .binop p1 p2 =>
    if p2 then
      if p1 then
        if n.binOpReverse then ⟨n.nid, .op2, 0, 0⟩ else ⟨n.nid, .op1, 0, 0⟩
      else ⟨n.nid, .op2, 0, 0⟩
    else
      if p1 then ⟨n.nid, .op1, 0, 0⟩ else ⟨n.nid, .noEdge, 0, -1⟩
  | .call _ _ _ _ => callSeekEarly n 0

/-- Modelled from the spec: `operator++` dispatching to the per-shape advance
functions (`AdvanceBinOp<ReverseOperands>` and `AdvanceCall<state>`,
gentree.cpp, not in src/). -/
def iterNext (n : IterNode) (it : UseEdgeIterState) : UseEdgeIterState :=
  if it.m_state = -1 then it
  else
    match n.shape with
    | .binop p1 p2 =>
      match it.m_edge with
      | .op1 => if p2 && !n.binOpReverse then ⟨n.nid, .op2, 0, 0⟩ else terminalFrom it
      | .op2 => if p1 && n.binOpReverse then ⟨n.nid, .op1, 0, 0⟩ else terminalFrom it
      | _ => terminalFrom it
    | .call _ _ _ _ =>
      match it.m_state with
      | 0 => callSeekEarly n (it.m_statePtr + 1)
      | 1 => callSeekLate n (it.m_statePtr + 1)
      | 2 => callSeekAddress n
      | _ => terminalFrom it

/-- Collect the edges the iterator yields, in order, until the terminal state
(fuel-bounded; `iterFuel` always suffices). -/
def collectSlots (n : IterNode) : Nat → UseEdgeIterState → List Slot
  | 0, _ => []
  | fuel + 1, it =>
    if it.m_state = -1 then [] else it.m_edge :: collectSlots n fuel (iterNext n it)

/-- Enough fuel to exhaust any modelled node's edge sequence. -/
def iterFuel (n : IterNode) : Nat := n.numEarlyArgs + n.numLateArgs + 2

/-- The full use-edge sequence of a node, from `UseEdgesBegin` to exhaustion. -/
def useEdgeSlots (n : IterNode) : List Slot :=
  collectSlots n (iterFuel n) (useEdgesBegin n)

/-- Iterating from a node: the iterator after `k` advances from `UseEdgesBegin`. -/
def iterAt (n : IterNode) : Nat → UseEdgeIterState
  | 0 => useEdgesBegin n
  | k + 1 => iterNext n (iterAt n k)

/- ------------------------------------------------------------------ -/
/- Theorems: helper lemmas and the verified claims.                    -/
/- ------------------------------------------------------------------ -/

/-- AND with a mask below `2 ^ n` only looks at the low `n` bits of the left operand. -/
theorem and_mask_mod (x m n : Nat) (hm : m < 2 ^ n) : x &&& m = x % 2 ^ n &&& m := by
  apply Nat.eq_of_testBit_eq
  intro i
  by_cases h : i < n
  · simp [Nat.testBit_and, Nat.testBit_mod_two_pow, h]
  · have hle : 2 ^ n ≤ 2 ^ i := Nat.pow_le_pow_right (by norm_num) (le_of_not_lt h)
    have hm' : m.testBit i = false := Nat.testBit_lt_two_pow (lt_of_lt_of_le hm hle)
    simp [Nat.testBit_and, hm']

/-- AND distributes over OR on natural-number bitmasks (right version). -/
theorem and_or_distrib_r (a b c : Nat) : (a ||| b) &&& c = a &&& c ||| b &&& c := by
  apply Nat.eq_of_testBit_eq
  intro i
  simp [Nat.testBit_and, Nat.testBit_or, Bool.and_or_distrib_right]

/-- Masking twice with the same mask is the same as masking once. -/
theorem and_mask_idem (x m : Nat) : x &&& m &&& m = x &&& m := by
  rw [Nat.and_assoc, Nat.and_self]

/-- C4: `GTF_GLOBALLY_VISIBLE_SIDE_EFFECTS` holds on a flag word exactly when the
may-call bit (GTF_CALL, bit 1) is set, or the may-throw bit (GTF_EXCEPT, bit 2)
is set, or both the may-assign bit (GTF_ASG, bit 0) and the reads-global-state
bit (GTF_GLOB_REF, bit 3) are set; no other combination makes it true. -/
theorem globallyVisibleSideEffects_iff (flags : Nat) :
    GTF_GLOBALLY_VISIBLE_SIDE_EFFECTS flags = true ↔
      (flags.testBit 1 = true ∨ flags.testBit 2 = true ∨
        (flags.testBit 0 = true ∧ flags.testBit 3 = true)) := by
  have key : ∀ r, r < 2 ^ 5 →
      (GTF_GLOBALLY_VISIBLE_SIDE_EFFECTS r = true ↔
        (r.testBit 1 = true ∨ r.testBit 2 = true ∨
          (r.testBit 0 = true ∧ r.testBit 3 = true))) := by decide
  have e1 : GTF_GLOBALLY_VISIBLE_SIDE_EFFECTS flags =
      GTF_GLOBALLY_VISIBLE_SIDE_EFFECTS (flags % 2 ^ 5) := by
    unfold GTF_GLOBALLY_VISIBLE_SIDE_EFFECTS
    rw [and_mask_mod flags (GTF_CALL ||| GTF_EXCEPT) 5 (by decide),
      and_mask_mod flags (GTF_ASG ||| GTF_GLOB_REF) 5 (by decide)]
  have ht : ∀ i, i < 5 → (flags % 2 ^ 5).testBit i = flags.testBit i := by
    intro i hi
    rw [Nat.testBit_mod_two_pow]
    simp [hi]
  rw [e1, key (flags % 2 ^ 5) (Nat.mod_lt _ (by norm_num)), ht 0 (by norm_num),
    ht 1 (by norm_num), ht 2 (by norm_num), ht 3 (by norm_num)]

/-- C1: a binary-shape node built with operands `a` and `b` has, immediately after
construction, composite side-effect flags equal to the union of `a`'s composite
side-effect flags, `b`'s composite side-effect flags and the effects introduced
by the operator itself (the latter being side-effect flags, i.e. within
GTF_ALL_EFFECT). -/
theorem genTreeOp_construction_effects (oper ty operEffects : Nat) (a b : GenTree)
    (h : operEffects &&& GTF_ALL_EFFECT = operEffects) :
    (mkGenTreeOp oper ty operEffects (some a) (some b)).gtFlags &&& GTF_ALL_EFFECT =
      a.gtFlags &&& GTF_ALL_EFFECT ||| b.gtFlags &&& GTF_ALL_EFFECT ||| operEffects := by
  show (operEffects ||| a.gtFlags &&& GTF_ALL_EFFECT ||| b.gtFlags &&& GTF_ALL_EFFECT) &&&
      GTF_ALL_EFFECT = _
  rw [and_or_distrib_r, and_or_distrib_r, and_mask_idem, and_mask_idem, h]
  rw [Nat.or_assoc, Nat.or_comm operEffects _]

/-- Witness for C10: a node carrying GTF_ASG outside sources' effects has that bit
cleared, while its non-effect bit GTF_REVERSE_OPS (bit 5) is untouched. -/
theorem genTreeOp_construction_effects_witness :
    (mkGenTreeOp 10 4 GTF_EXCEPT (some ⟨1, 4, GTF_ASG, emptyVNPair⟩)
        (some ⟨2, 4, GTF_CALL, emptyVNPair⟩)).gtFlags &&& GTF_ALL_EFFECT =
      GTF_ASG &&& GTF_ALL_EFFECT ||| GTF_CALL &&& GTF_ALL_EFFECT ||| GTF_EXCEPT :=
  genTreeOp_construction_effects 10 4 GTF_EXCEPT ⟨1, 4, GTF_ASG, emptyVNPair⟩
    ⟨2, 4, GTF_CALL, emptyVNPair⟩ (by decide)

/-- Bits of the composite-effect mask: set exactly below bit 5. -/
theorem GTF_ALL_EFFECT_testBit (i : Nat) :
    GTF_ALL_EFFECT.testBit i = decide (i < 5) := by
  have h31 : GTF_ALL_EFFECT = 2 ^ 5 - 1 := by decide
  rw [h31, Nat.testBit_two_pow_sub_one]

/-- Bits of the 32-bit complement of the composite-effect mask. -/
theorem NOT_GTF_ALL_EFFECT_testBit (i : Nat) :
    NOT_GTF_ALL_EFFECT.testBit i = (decide (i < 32) && !decide (i < 5)) := by
  have hFF : (0xFFFFFFFF : Nat) = 2 ^ 32 - 1 := by norm_num
  rw [NOT_GTF_ALL_EFFECT, Nat.testBit_xor, hFF, Nat.testBit_two_pow_sub_one,
    GTF_ALL_EFFECT_testBit]
  by_cases h5 : i < 5
  · have h32 : i < 32 := lt_trans h5 (by norm_num)
    simp [h5, h32]
  · simp [h5]

/-- C10: `SetAllEffectsFlags` replaces rather than accumulates. After the
two-source overload, every flag bit outside GTF_ALL_EFFECT is exactly what it
was before, every bit inside GTF_ALL_EFFECT equals the corresponding bit of the
union of the sources' flag words, and in particular any composite-effect bit
previously set on the node but absent from the sources' union is cleared. -/
theorem setAllEffectsFlags_replaces (t s1 s2 : GenTree) (h : t.gtFlags < 2 ^ 32) :
    (∀ i, GTF_ALL_EFFECT.testBit i = false →
        (SetAllEffectsFlags2 t s1 s2).gtFlags.testBit i = t.gtFlags.testBit i) ∧
    (∀ i, GTF_ALL_EFFECT.testBit i = true →
        (SetAllEffectsFlags2 t s1 s2).gtFlags.testBit i =
          (s1.gtFlags ||| s2.gtFlags).testBit i) ∧
    (∀ i, GTF_ALL_EFFECT.testBit i = true → t.gtFlags.testBit i = true →
        (s1.gtFlags ||| s2.gtFlags).testBit i = false →
        (SetAllEffectsFlags2 t s1 s2).gtFlags.testBit i = false) := by
  have hbit : ∀ i, (SetAllEffectsFlags2 t s1 s2).gtFlags.testBit i =
      ((t.gtFlags.testBit i && NOT_GTF_ALL_EFFECT.testBit i) ||
        ((s1.gtFlags ||| s2.gtFlags).testBit i && GTF_ALL_EFFECT.testBit i)) := by
    intro i
    show ((t.gtFlags &&& NOT_GTF_ALL_EFFECT) |||
        ((s1.gtFlags ||| s2.gtFlags) &&& GTF_ALL_EFFECT)).testBit i = _
    rw [Nat.testBit_or, Nat.testBit_and, Nat.testBit_and]
  refine ⟨?_, ?_, ?_⟩
  · intro i hm
    rw [hbit i, hm, NOT_GTF_ALL_EFFECT_testBit i]
    rw [GTF_ALL_EFFECT_testBit] at hm
    by_cases h32 : i < 32
    · simp only [Bool.and_false, Bool.or_false, hm, h32]
      simp
    · have hge : 2 ^ 32 ≤ 2 ^ i := Nat.pow_le_pow_right (by norm_num) (le_of_not_lt h32)
      have ht : t.gtFlags.testBit i = false :=
        Nat.testBit_lt_two_pow (lt_of_lt_of_le h hge)
      simp [ht, h32]
  · intro i hm
    rw [hbit i, hm, NOT_GTF_ALL_EFFECT_testBit i]
    rw [GTF_ALL_EFFECT_testBit] at hm
    have h5 : i < 5 := by simpa using hm
    simp [h5]
  · intro i hm _ hu
    rw [hbit i, hm, hu, NOT_GTF_ALL_EFFECT_testBit i]
    rw [GTF_ALL_EFFECT_testBit] at hm
    have h5 : i < 5 := by simpa using hm
    simp [h5]

theorem setAllEffectsFlags_replaces_witness :
    (SetAllEffectsFlags2 ⟨1, 4, GTF_ASG ||| GTF_REVERSE_OPS, emptyVNPair⟩
        ⟨2, 4, GTF_CALL, emptyVNPair⟩ ⟨3, 4, GTF_EXCEPT, emptyVNPair⟩).gtFlags.testBit 5 =
      (GTF_ASG ||| GTF_REVERSE_OPS).testBit 5 :=
  (setAllEffectsFlags_replaces ⟨1, 4, GTF_ASG ||| GTF_REVERSE_OPS, emptyVNPair⟩
      ⟨2, 4, GTF_CALL, emptyVNPair⟩ ⟨3, 4, GTF_EXCEPT, emptyVNPair⟩ (by decide)).1
    5 (by decide)

/-- C9: changing a node's operator with PRESERVE_VN leaves the value-number pair
untouched (querying it afterwards returns the original values), while the
CLEAR_VN variant (the default) leaves the pair in the empty/no-value-number
state; in both cases the operator code is updated. -/
theorem setOper_valueNumber (t : GenTree) (oper : Nat) :
    (SetOper t oper .PRESERVE_VN).gtVNPair = t.gtVNPair ∧
    (∀ vnk, GetVN (SetOper t oper .PRESERVE_VN) vnk = GetVN t vnk) ∧
    (SetOper t oper .CLEAR_VN).gtVNPair = emptyVNPair ∧
    (∀ vnk, GetVN (SetOper t oper .CLEAR_VN) vnk = NoVN) ∧
    (SetOper t oper .PRESERVE_VN).gtOper = oper ∧
    (SetOper t oper .CLEAR_VN).gtOper = oper := by
  refine ⟨rfl, ?_, rfl, ?_, rfl, rfl⟩
  · intro vnk
    cases vnk <;> rfl
  · intro vnk
    cases vnk <;> rfl

/-- C8: a copy/reload node's register count is derived as the highest assigned
register index plus one (never read from a stored count), and on a node whose
registers are assigned at indices 0 and 2 only, `GetRegCount` returns 3 — not
the number of assigned registers, 2 — while index 1 reports "no register". -/
theorem copyOrReload_regCount (t : GenTreeCopyOrReload) (r0 r2 : Nat)
    (h2 : r2 ≠ REG_NA) :
    t.GetRegCount = t.highestAssignedRegIdxSpec + 1 ∧
    GenTreeCopyOrReload.GetRegCount ⟨r0, REG_NA, r2, REG_NA⟩ = 3 ∧
    GenTreeCopyOrReload.GetRegNumByIdx ⟨r0, REG_NA, r2, REG_NA⟩ 1 = REG_NA := by
  refine ⟨?_, ?_, rfl⟩
  · show t.regCountLoop 4 = _
    by_cases ha : t.otherReg2 ≠ REG_NA <;> by_cases hb : t.otherReg1 ≠ REG_NA <;>
      by_cases hc : t.otherReg0 ≠ REG_NA <;>
      simp [GenTreeCopyOrReload.regCountLoop, GenTreeCopyOrReload.highestAssignedRegIdxSpec,
        GenTreeCopyOrReload.GetRegNumByIdx, GenTreeCopyOrReload.gtOtherReg, ha, hb, hc]
  · show GenTreeCopyOrReload.regCountLoop _ 4 = 3
    simp [GenTreeCopyOrReload.regCountLoop, GenTreeCopyOrReload.gtOtherReg, h2]

/-- Witness for C8: registers 5 and 7 assigned at indices 0 and 2. -/
theorem copyOrReload_regCount_witness :
    GenTreeCopyOrReload.GetRegCount ⟨5, REG_NA, 7, REG_NA⟩ =
        GenTreeCopyOrReload.highestAssignedRegIdxSpec ⟨5, REG_NA, 7, REG_NA⟩ + 1 ∧
      GenTreeCopyOrReload.GetRegCount ⟨5, REG_NA, 7, REG_NA⟩ = 3 ∧
      GenTreeCopyOrReload.GetRegNumByIdx ⟨5, REG_NA, 7, REG_NA⟩ 1 = REG_NA :=
  copyOrReload_regCount ⟨5, REG_NA, 7, REG_NA⟩ 5 7 (by decide)

/-- C3: the NotAField sentinel is absorbing for Append on both sides, for every
sequence handle (the sentinel itself included) and every arena. -/
theorem append_notAField_absorbing (s : List FieldSeqNode) (b : FieldSeqRef) :
    (Append s NotAField b).1 = NotAField ∧ (Append s b NotAField).1 = NotAField := by
  constructor
  · rfl
  · cases b <;> rfl

/-- `FieldSeqNode::Equals` is structural equality of the modelled node. -/
theorem EqualsB_iff (a b : FieldSeqNode) : a.EqualsB b = true ↔ a = b := by
  cases a
  cases b
  simp [FieldSeqNode.EqualsB, FieldSeqNode.mk.injEq]

theorem StoreLe.rfl' (s : List FieldSeqNode) : StoreLe s s := ⟨[], by simp⟩

theorem StoreLe.trans' {s t u : List FieldSeqNode} (h1 : StoreLe s t) (h2 : StoreLe t u) :
    StoreLe s u := by
  obtain ⟨a, rfl⟩ := h1
  obtain ⟨b, rfl⟩ := h2
  exact ⟨a ++ b, by simp⟩

/-- Interned nodes keep their position when the arena grows. -/
theorem StoreLe.lookup_mono {s t : List FieldSeqNode} {i : Nat} {n : FieldSeqNode}
    (h : StoreLe s t) (hg : s[i]? = some n) : t[i]? = some n := by
  obtain ⟨u, rfl⟩ := h
  have hi : i < s.length := (List.getElem?_eq_some.mp hg).1
  rw [List.getElem?_append_left hi]
  exact hg

theorem findNode_eq_none (s : List FieldSeqNode) (n : FieldSeqNode) :
    findNode s n = none ↔ n ∉ s := by
  induction s with
  | nil => simp [findNode]
  | cons m rest ih =>
    rw [findNode]
    by_cases h : m.EqualsB n = true
    · have hm : m = n := (EqualsB_iff m n).mp h
      subst hm
      simp [h]
    · have hm : ¬(n = m) := fun he => h ((EqualsB_iff m n).mpr he.symm)
      simp [h, Option.map_eq_none', ih, hm]

theorem findNode_some_lookup (s : List FieldSeqNode) (n : FieldSeqNode) :
    ∀ i, findNode s n = some i → s[i]? = some n := by
  induction s with
  | nil =>
    intro i h
    simp [findNode] at h
  | cons m rest ih =>
    intro i h
    rw [findNode] at h
    by_cases hm : m.EqualsB n = true
    · rw [if_pos hm] at h
      cases h
      simpa using (EqualsB_iff m n).mp hm
    · rw [if_neg hm] at h
      obtain ⟨j, hj, rfl⟩ := Option.map_eq_some'.mp h
      simpa using ih j hj

theorem findNode_of_nodup (s : List FieldSeqNode) (n : FieldSeqNode) :
    ∀ i, s.Nodup → s[i]? = some n → findNode s n = some i := by
  induction s with
  | nil =>
    intro i _ hg
    simp at hg
  | cons m rest ih =>
    intro i hs hg
    obtain ⟨hnotin, hrest⟩ := List.nodup_cons.mp hs
    rw [findNode]
    match i, hg with
    | 0, hg =>
      have hm : m = n := by simpa using hg
      rw [if_pos ((EqualsB_iff m n).mpr hm)]
    | j + 1, hg =>
      have hg' : rest[j]? = some n := by simpa using hg
      have hmem : n ∈ rest := List.getElem?_mem hg'
      have hm : ¬(m.EqualsB n = true) := fun he => by
        rw [(EqualsB_iff m n).mp he] at hnotin
        exact hnotin hmem
      rw [if_neg hm, ih j hrest hg']
      rfl

theorem intern_le (s : List FieldSeqNode) (n : FieldSeqNode) : StoreLe s (intern s n).2 := by
  unfold intern
  cases hf : findNode s n
  · exact ⟨[n], rfl⟩
  · exact ⟨[], by simp⟩

theorem intern_lookup (s : List FieldSeqNode) (n : FieldSeqNode) :
    ∃ i, (intern s n).1 = .seq i ∧ (intern s n).2[i]? = some n := by
  unfold intern
  cases hf : findNode s n with
  | none => exact ⟨s.length, rfl, List.getElem?_concat_length s n⟩
  | some i => exact ⟨i, rfl, findNode_some_lookup s n i hf⟩

theorem intern_nodup (s : List FieldSeqNode) (n : FieldSeqNode) (hs : s.Nodup) :
    (intern s n).2.Nodup := by
  unfold intern
  cases hf : findNode s n with
  | none =>
    have hnotin : n ∉ s := (findNode_eq_none s n).mp hf
    simp [List.nodup_append, hs, List.disjoint_singleton, hnotin]
  | some i => exact hs

theorem intern_stable (s : List FieldSeqNode) (n : FieldSeqNode) (t : List FieldSeqNode)
    (ht : t.Nodup) (hle : StoreLe (intern s n).2 t) : intern t n = ((intern s n).1, t) := by
  obtain ⟨i, h1, h2⟩ := intern_lookup s n
  have hget : t[i]? = some n := hle.lookup_mono h2
  have hf : findNode t n = some i := findNode_of_nodup t n i ht hget
  have hL : intern t n = (.seq i, t) := by simp [intern, hf]
  rw [hL, h1]

/-- Unfolding `Append` when the left argument is a handle to an interned
singleton node (the shape produced by `CreateSingleton`). -/
theorem append_singleton (s : List FieldSeqNode) (i fhk : Nat) (b : FieldSeqRef)
    (hg : s[i]? = some ⟨fhk, .nullSeq⟩) :
    Append s (.seq i) b =
      match b with
      | .nullSeq => (.seq i, s)
      | .notAField => (.notAField, s)
      | .seq j => intern s ⟨fhk, .seq j⟩ := by
  cases b with
  | nullSeq => rfl
  | notAField => rfl
  | seq j =>
    show appendFuel (s.length + 1) s (.seq i) (.seq j) = intern s ⟨fhk, .seq j⟩
    simp only [appendFuel, hg]

theorem append_singleton_le_nodup (s : List FieldSeqNode) (i fhk : Nat) (b : FieldSeqRef)
    (hg : s[i]? = some ⟨fhk, .nullSeq⟩) (hs : s.Nodup) :
    StoreLe s (Append s (.seq i) b).2 ∧ (Append s (.seq i) b).2.Nodup := by
  rw [append_singleton s i fhk b hg]
  cases b with
  | nullSeq => exact ⟨StoreLe.rfl' s, hs⟩
  | notAField => exact ⟨StoreLe.rfl' s, hs⟩
  | seq j => exact ⟨intern_le s _, intern_nodup s _ hs⟩

theorem append_singleton_stable (s : List FieldSeqNode) (i fhk : Nat) (b : FieldSeqRef)
    (t : List FieldSeqNode) (hg : s[i]? = some ⟨fhk, .nullSeq⟩) (ht : t.Nodup)
    (hle : StoreLe (Append s (.seq i) b).2 t) (hgt : t[i]? = some ⟨fhk, .nullSeq⟩) :
    Append t (.seq i) b = ((Append s (.seq i) b).1, t) := by
  rw [append_singleton s i fhk b hg] at hle ⊢
  rw [append_singleton t i fhk b hgt]
  cases b with
  | nullSeq => rfl
  | notAField => rfl
  | seq j => exact intern_stable s ⟨fhk, .seq j⟩ t ht hle

theorem buildSeq_le_nodup (c : List (Nat × Nat)) : ∀ s : List FieldSeqNode, s.Nodup →
    StoreLe s (buildSeq s c).2 ∧ (buildSeq s c).2.Nodup := by
  induction c with
  | nil =>
    intro s hs
    exact ⟨StoreLe.rfl' s, hs⟩
  | cons fk rest ih =>
    intro s hs
    obtain ⟨f, k⟩ := fk
    obtain ⟨h1, h2⟩ := ih s hs
    obtain ⟨i, hi1, hi2⟩ := intern_lookup (buildSeq s rest).2 ⟨f * 4 + k, .nullSeq⟩
    have hi1' : (CreateSingleton (buildSeq s rest).2 f k).1 = FieldSeqRef.seq i := hi1
    have hi2' : (CreateSingleton (buildSeq s rest).2 f k).2[i]? =
        some ⟨f * 4 + k, .nullSeq⟩ := hi2
    have hle2 : StoreLe (buildSeq s rest).2 (CreateSingleton (buildSeq s rest).2 f k).2 :=
      intern_le _ _
    have hnd2 : (CreateSingleton (buildSeq s rest).2 f k).2.Nodup := intern_nodup _ _ h2
    have hrun : buildSeq s ((f, k) :: rest) =
        Append (CreateSingleton (buildSeq s rest).2 f k).2
          (CreateSingleton (buildSeq s rest).2 f k).1 (buildSeq s rest).1 := rfl
    rw [hrun, hi1']
    obtain ⟨ha1, ha2⟩ := append_singleton_le_nodup _ i (f * 4 + k) (buildSeq s rest).1 hi2' hnd2
    exact ⟨(h1.trans' hle2).trans' ha1, ha2⟩

theorem buildSeq_stable (c : List (Nat × Nat)) : ∀ (s t : List FieldSeqNode), s.Nodup →
    t.Nodup → StoreLe (buildSeq s c).2 t → buildSeq t c = ((buildSeq s c).1, t) := by
  induction c with
  | nil =>
    intro s t _ _ _
    rfl
  | cons fk rest ih =>
    intro s t hs ht hle
    obtain ⟨f, k⟩ := fk
    obtain ⟨hle1, hnd1⟩ := buildSeq_le_nodup rest s hs
    have hle2 : StoreLe (buildSeq s rest).2 (CreateSingleton (buildSeq s rest).2 f k).2 :=
      intern_le _ _
    have hnd2 : (CreateSingleton (buildSeq s rest).2 f k).2.Nodup := intern_nodup _ _ hnd1
    obtain ⟨i, hi1, hi2⟩ := intern_lookup (buildSeq s rest).2 ⟨f * 4 + k, .nullSeq⟩
    have hi1' : (CreateSingleton (buildSeq s rest).2 f k).1 = FieldSeqRef.seq i := hi1
    have hi2' : (CreateSingleton (buildSeq s rest).2 f k).2[i]? =
        some ⟨f * 4 + k, .nullSeq⟩ := hi2
    have hrun : buildSeq s ((f, k) :: rest) =
        Append (CreateSingleton (buildSeq s rest).2 f k).2
          (CreateSingleton (buildSeq s rest).2 f k).1 (buildSeq s rest).1 := rfl
    rw [hrun, hi1'] at hle
    obtain ⟨hleA, _⟩ := append_singleton_le_nodup _ i (f * 4 + k) (buildSeq s rest).1 hi2' hnd2
    have hleT : StoreLe (CreateSingleton (buildSeq s rest).2 f k).2 t := hleA.trans' hle
    have hrest : buildSeq t rest = ((buildSeq s rest).1, t) :=
      ih s t hs ht ((hle2.trans' hleA).trans' hle)
    have hsingle : CreateSingleton t f k = ((CreateSingleton (buildSeq s rest).2 f k).1, t) :=
      intern_stable _ _ t ht hleT
    have happ : Append t (.seq i) (buildSeq s rest).1 =
        ((Append (CreateSingleton (buildSeq s rest).2 f k).2 (.seq i)
          (buildSeq s rest).1).1, t) :=
      append_singleton_stable _ i (f * 4 + k) (buildSeq s rest).1 t hi2' ht hle
        (hleT.lookup_mono hi2')
    have hrun2 : buildSeq t ((f, k) :: rest) =
        Append (CreateSingleton (buildSeq t rest).2 f k).2
          (CreateSingleton (buildSeq t rest).2 f k).1 (buildSeq t rest).1 := rfl
    rw [hrun2, hrest]
    dsimp only
    rw [hsingle]
    dsimp only
    rw [hi1', happ, hrun, hi1']

/-- C2: with a well-formed store (no two interned nodes `Equals`-identical, the
hash-table invariant), building the field sequence for the same
(field handle, field kind) chain a second time — through its own, independent
`CreateSingleton` and `Append` calls — yields the identical handle, so
structural equality of canonical sequences reduces to identity equality. -/
theorem fieldSeqStore_canonical (c : List (Nat × Nat)) (s : List FieldSeqNode)
    (hs : s.Nodup) :
    (buildSeq (buildSeq s c).2 c).1 = (buildSeq s c).1 := by
  obtain ⟨_, hnd⟩ := buildSeq_le_nodup c s hs
  rw [buildSeq_stable c s (buildSeq s c).2 hs hnd (StoreLe.rfl' _)]

/-- Witness for C2: the two-field chain `a.b` built twice from the empty store
resolves to the same handle both times. -/
theorem fieldSeqStore_canonical_witness :
    (buildSeq (buildSeq [] [(4, 0), (8, 1)]).2 [(4, 0), (8, 1)]).1 =
      (buildSeq ([] : List FieldSeqNode) [(4, 0), (8, 1)]).1 :=
  fieldSeqStore_canonical [(4, 0), (8, 1)] [] (by decide)

/-- C6: for a binary-shape node with both operands present, the use-edge iterator
yields the second operand strictly before the first when GTF_REVERSE_OPS is set,
and the first strictly before the second when it is clear. -/
theorem binOpUseEdges_reverse (n : IterNode) (h : n.shape = .binop true true) :
    (n.gtFlags &&& GTF_REVERSE_OPS ≠ 0 → useEdgeSlots n = [Slot.op2, Slot.op1]) ∧
    (n.gtFlags &&& GTF_REVERSE_OPS = 0 → useEdgeSlots n = [Slot.op1, Slot.op2]) := by
  constructor
  · intro hrev
    simp [useEdgeSlots, iterFuel, IterNode.numEarlyArgs, IterNode.numLateArgs, h,
      useEdgesBegin, IterNode.binOpReverse, hrev, collectSlots, iterNext, terminalFrom]
  · intro hrev
    simp [useEdgeSlots, iterFuel, IterNode.numEarlyArgs, IterNode.numLateArgs, h,
      useEdgesBegin, IterNode.binOpReverse, hrev, collectSlots, iterNext, terminalFrom]

/-- Witness for C6: a reversed and an unreversed binary node at concrete inputs. -/
theorem binOpUseEdges_reverse_witness :
    useEdgeSlots ⟨1, GTF_REVERSE_OPS, .binop true true⟩ = [Slot.op2, Slot.op1] ∧
      useEdgeSlots ⟨1, 0, .binop true true⟩ = [Slot.op1, Slot.op2] :=
  ⟨(binOpUseEdges_reverse ⟨1, GTF_REVERSE_OPS, .binop true true⟩ rfl).1 (by decide),
    (binOpUseEdges_reverse ⟨1, 0, .binop true true⟩ rfl).2 (by decide)⟩

theorem collect_terminalFrom (n : IterNode) (f : Nat) (it : UseEdgeIterState) :
    collectSlots n f (terminalFrom it) = [] := by
  cases f <;> simp [collectSlots, terminalFrom]

theorem collect_terminalState (n : IterNode) (f x : Nat) (e : Slot) (p : Nat) :
    collectSlots n f ⟨x, e, p, -1⟩ = [] := by
  cases f <;> simp [collectSlots]

theorem collect_step (n : IterNode) (f : Nat) (it : UseEdgeIterState)
    (h : ¬(it.m_state = -1)) :
    collectSlots n (f + 1) it = it.m_edge :: collectSlots n f (iterNext n it) := by
  simp [collectSlots, h]

theorem collect_seekAddress (n : IterNode) (ne nl : Nat) (c a : Bool)
    (h : n.shape = .call ne nl c a) :
    ∀ f, 1 ≤ f → collectSlots n f (callSeekAddress n) =
      (if a then [Slot.callAddr] else []) := by
  have hA : n.hasCallAddress = a := by simp [IterNode.hasCallAddress, h]
  intro f hf
  obtain ⟨f', rfl⟩ : ∃ f', f = f' + 1 := ⟨f - 1, by omega⟩
  by_cases ha : a = true
  · have e1 : callSeekAddress n = ⟨n.nid, .callAddr, 0, 4⟩ := by
      simp [callSeekAddress, hA, ha]
    have e2 : iterNext n ⟨n.nid, .callAddr, 0, 4⟩ =
        terminalFrom ⟨n.nid, .callAddr, 0, 4⟩ := by
      simp [iterNext, h]
    rw [e1, collect_step n f' _ (by simp), e2, collect_terminalFrom, ha]
    simp
  · have ha' : a = false := by simpa using ha
    have e1 : callSeekAddress n = ⟨n.nid, .noEdge, 0, -1⟩ := by
      simp [callSeekAddress, hA, ha']
    rw [e1, collect_terminalState, ha']
    simp

theorem collect_seekCtrl (n : IterNode) (ne nl : Nat) (c a : Bool)
    (h : n.shape = .call ne nl c a) :
    ∀ f, 2 ≤ f → collectSlots n f (callSeekCtrl n) =
      (if c then [Slot.ctrlExpr] else []) ++ (if a then [Slot.callAddr] else []) := by
  have hC : n.hasControlExpr = c := by simp [IterNode.hasControlExpr, h]
  intro f hf
  by_cases hc : c = true
  · obtain ⟨f', rfl⟩ : ∃ f', f = f' + 1 := ⟨f - 1, by omega⟩
    have e1 : callSeekCtrl n = ⟨n.nid, .ctrlExpr, 0, 2⟩ := by simp [callSeekCtrl, hC, hc]
    have e2 : iterNext n ⟨n.nid, .ctrlExpr, 0, 2⟩ = callSeekAddress n := by
      simp [iterNext, h]
    rw [e1, collect_step n f' _ (by simp), e2,
      collect_seekAddress n ne nl c a h f' (by omega), hc]
    simp
  · have hc' : c = false := by simpa using hc
    have e1 : callSeekCtrl n = callSeekAddress n := by simp [callSeekCtrl, hC, hc']
    rw [e1, collect_seekAddress n ne nl c a h f (by omega), hc']
    simp

theorem collect_seekLate (n : IterNode) (ne nl : Nat) (c a : Bool)
    (h : n.shape = .call ne nl c a) :
    ∀ d ptr f, nl ≤ ptr + d → d + 2 ≤ f →
      collectSlots n f (callSeekLate n ptr) =
        (List.range' ptr (nl - ptr)).map Slot.lateArg ++
          (if c then [Slot.ctrlExpr] else []) ++ (if a then [Slot.callAddr] else []) := by
  have hL : n.numLateArgs = nl := by simp [IterNode.numLateArgs, h]
  intro d
  induction d with
  | zero =>
    intro ptr f hd hf
    have hnp : ¬(ptr < nl) := by omega
    have e1 : callSeekLate n ptr = callSeekCtrl n := by simp [callSeekLate, hL, hnp]
    have h0 : nl - ptr = 0 := by omega
    rw [e1, collect_seekCtrl n ne nl c a h f (by omega), h0]
    simp [List.range']
  | succ d ih =>
    intro ptr f hd hf
    by_cases hp : ptr < nl
    · obtain ⟨f', rfl⟩ : ∃ f', f = f' + 1 := ⟨f - 1, by omega⟩
      have e1 : callSeekLate n ptr = ⟨n.nid, .lateArg ptr, ptr, 1⟩ := by
        simp [callSeekLate, hL, hp]
      have e2 : iterNext n ⟨n.nid, .lateArg ptr, ptr, 1⟩ = callSeekLate n (ptr + 1) := by
        simp [iterNext, h]
      rw [e1, collect_step n f' _ (by simp), e2,
        ih (ptr + 1) f' (by omega) (by omega)]
      have hr : nl - ptr = (nl - (ptr + 1)) + 1 := by omega
      rw [hr]
      simp [List.range']
    · have e1 : callSeekLate n ptr = callSeekCtrl n := by simp [callSeekLate, hL, hp]
      have h0 : nl - ptr = 0 := by omega
      rw [e1, collect_seekCtrl n ne nl c a h f (by omega), h0]
      simp [List.range']

theorem collect_seekEarly (n : IterNode) (ne nl : Nat) (c a : Bool)
    (h : n.shape = .call ne nl c a) :
    ∀ d ptr f, ne ≤ ptr + d → d + nl + 2 ≤ f →
      collectSlots n f (callSeekEarly n ptr) =
        (List.range' ptr (ne - ptr)).map Slot.earlyArg ++
          (List.range' 0 nl).map Slot.lateArg ++
          (if c then [Slot.ctrlExpr] else []) ++ (if a then [Slot.callAddr] else []) := by
  have hE : n.numEarlyArgs = ne := by simp [IterNode.numEarlyArgs, h]
  intro d
  induction d with
  | zero =>
    intro ptr f hd hf
    have hnp : ¬(ptr < ne) := by omega
    have e1 : callSeekEarly n ptr = callSeekLate n 0 := by simp [callSeekEarly, hE, hnp]
    have h0 : ne - ptr = 0 := by omega
    rw [e1, collect_seekLate n ne nl c a h nl 0 f (by omega) (by omega), h0]
    simp [List.range']
  | succ d ih =>
    intro ptr f hd hf
    by_cases hp : ptr < ne
    · obtain ⟨f', rfl⟩ : ∃ f', f = f' + 1 := ⟨f - 1, by omega⟩
      have e1 : callSeekEarly n ptr = ⟨n.nid, .earlyArg ptr, ptr, 0⟩ := by
        simp [callSeekEarly, hE, hp]
      have e2 : iterNext n ⟨n.nid, .earlyArg ptr, ptr, 0⟩ = callSeekEarly n (ptr + 1) := by
        simp [iterNext, h]
      rw [e1, collect_step n f' _ (by simp), e2,
        ih (ptr + 1) f' (by omega) (by omega)]
      have hr : ne - ptr = (ne - (ptr + 1)) + 1 := by omega
      rw [hr]
      simp [List.range']
    · have e1 : callSeekEarly n ptr = callSeekLate n 0 := by simp [callSeekEarly, hE, hp]
      have h0 : ne - ptr = 0 := by omega
      rw [e1, collect_seekLate n ne nl c a h nl 0 f (by omega) (by omega), h0]
      simp [List.range']

/-- C5: for a call-shape node, the use-edge iterator yields exactly these live
child slots and no others: every evaluation-order argument in list order, then
every late/ABI-order argument in list order, then the control-target expression
if present, then the indirect-call-target expression if present. -/
theorem callUseEdges_order (n : IterNode) (ne nl : Nat) (c a : Bool)
    (h : n.shape = .call ne nl c a) :
    useEdgeSlots n =
      (List.range ne).map Slot.earlyArg ++ (List.range nl).map Slot.lateArg ++
        (if c then [Slot.ctrlExpr] else []) ++ (if a then [Slot.callAddr] else []) := by
  have hE : n.numEarlyArgs = ne := by simp [IterNode.numEarlyArgs, h]
  have hL : n.numLateArgs = nl := by simp [IterNode.numLateArgs, h]
  have hb : useEdgesBegin n = callSeekEarly n 0 := by simp [useEdgesBegin, h]
  rw [useEdgeSlots, hb, iterFuel, hE, hL,
    collect_seekEarly n ne nl c a h ne 0 (ne + nl + 2) (by omega) (by omega)]
  simp [List.range_eq_range']

/-- Witness for C5: a call with two evaluation-order arguments, one late argument,
a control-target expression and no indirect-call-target expression. -/
theorem callUseEdges_order_witness :
    useEdgeSlots ⟨7, 0, .call 2 1 true false⟩ =
      (List.range 2).map Slot.earlyArg ++ (List.range 1).map Slot.lateArg ++
        (if true then [Slot.ctrlExpr] else []) ++ (if false then [Slot.callAddr] else []) :=
  callUseEdges_order ⟨7, 0, .call 2 1 true false⟩ 2 1 true false rfl

theorem callSeekAddress_node (n : IterNode) : (callSeekAddress n).m_node = n.nid := by
  unfold callSeekAddress
  split <;> rfl

theorem callSeekCtrl_node (n : IterNode) : (callSeekCtrl n).m_node = n.nid := by
  unfold callSeekCtrl
  split
  · rfl
  · exact callSeekAddress_node n

theorem callSeekLate_node (n : IterNode) (ptr : Nat) :
    (callSeekLate n ptr).m_node = n.nid := by
  unfold callSeekLate
  split
  · rfl
  · exact callSeekCtrl_node n

theorem callSeekEarly_node (n : IterNode) (ptr : Nat) :
    (callSeekEarly n ptr).m_node = n.nid := by
  unfold callSeekEarly
  split
  · rfl
  · exact callSeekLate_node n 0

theorem useEdgesBegin_node (n : IterNode) : (useEdgesBegin n).m_node = n.nid := by
  unfold useEdgesBegin
  split
  · split_ifs <;> rfl
  · exact callSeekEarly_node n 0

theorem iterNext_node (n : IterNode) (it : UseEdgeIterState) (h : it.m_node = n.nid) :
    (iterNext n it).m_node = n.nid := by
  unfold iterNext
  by_cases h1 : it.m_state = -1
  · simpa [h1] using h
  · rw [if_neg h1]
    split
    · split
      · split_ifs <;> simp [terminalFrom, h]
      · split_ifs <;> simp [terminalFrom, h]
      · simp [terminalFrom, h]
    · split
      · exact callSeekEarly_node n _
      · exact callSeekLate_node n _
      · exact callSeekAddress_node n
      · simp [terminalFrom, h]

theorem iterAt_node (n : IterNode) (k : Nat) : (iterAt n k).m_node = n.nid := by
  induction k with
  | zero => exact useEdgesBegin_node n
  | succ k ih => exact iterNext_node n (iterAt n k) ih

/-- C7: equality of use-edge iterators is total, and two iterators obtained from
nodes with different addresses are unequal unless both are exhausted, in which
case they compare equal regardless of their origin. -/
theorem useEdgeIterator_eq_iff (n1 n2 : IterNode) (k1 k2 : Nat) (h : n1.nid ≠ n2.nid) :
    iterEq (iterAt n1 k1) (iterAt n2 k2) = true ↔
      ((iterAt n1 k1).m_state = -1 ∧ (iterAt n2 k2).m_state = -1) := by
  have ha : (iterAt n1 k1).m_node = n1.nid := iterAt_node n1 k1
  have hb : (iterAt n2 k2).m_node = n2.nid := iterAt_node n2 k2
  unfold iterEq
  by_cases s1 : (iterAt n1 k1).m_state = -1 <;> by_cases s2 : (iterAt n2 k2).m_state = -1
  · simp [s1, s2]
  · simp [s1, s2]
    try omega
  · simp [s1, s2]
    try omega
  · have hne : ¬((iterAt n1 k1).m_node = (iterAt n2 k2).m_node) := by
      rw [ha, hb]
      exact h
    simp [s1, s2, hne]

/-- Witness for C7: exhausted iterators from two distinct nodes compare equal;
the instantiated equivalence holds at concrete nodes and step counts. -/
theorem useEdgeIterator_eq_iff_witness :
    iterEq (iterAt ⟨1, 0, .binop true true⟩ 5) (iterAt ⟨2, 0, .binop true true⟩ 5) = true ↔
      ((iterAt ⟨1, 0, .binop true true⟩ 5).m_state = -1 ∧
        (iterAt ⟨2, 0, .binop true true⟩ 5).m_state = -1) :=
  useEdgeIterator_eq_iff ⟨1, 0, .binop true true⟩ ⟨2, 0, .binop true true⟩ 5 5 (by decide)

end GenTreeModel

